import Mathlib

/-!
Verification of the dual-UART driver `src/uart2.c` (AVRlib `uart2.c`).

The driver's per-channel mutable state (`uartReadyTx`, `uartBufferedTx`,
`uartRxBuffer`, `uartTxBuffer`, `uartRxOverflow`, `UartRxFunc`) is embedded
as a record `Chan`; each C function becomes a pure Lean function from the
old state to the new state, together with a trace of externally visible
hardware effects (bytes written to the UART data register, invocations of
the user receive callback).  Bytes are modelled as `Nat` (with `≤ 255`
hypotheses where the 8-bit range matters), function pointers as `Option Nat`
(`none` is the null pointer).

The ring-buffer component (`cBuffer`, from `buffer.c`/`buffer.h`) is not
part of the given sources; it is modelled from the spec, section 4.1.
-/

namespace Uart2

/-- Modelled from the spec: the ring buffer type `cBuffer` of `buffer.h`
(not under `src/`).  The spec describes a fixed-capacity byte queue with
`head`/`tail`/`length` bookkeeping; since the indices are pure bookkeeping
modulo the capacity, the queue is embedded as the list of valid bytes in
FIFO order (front of the list = oldest byte, where the read index points)
plus the fixed capacity `size`.  `datalength` is the occupancy. -/
structure cBuffer where
  data : List Nat
  size : Nat
deriving DecidableEq, Repr

def cBuffer.datalength (b : cBuffer) : Nat := b.data.length

/-- Modelled from the spec: `push_back(byte) -> bool` appends if
`length < capacity`, else fails with no mutation and no error raised
(`bufferAddToEnd` of `buffer.c`, not under `src/`). -/
def bufferAddToEnd (b : cBuffer) (d : Nat) : Bool × cBuffer :=
  if b.data.length < b.size then (true, { b with data := b.data ++ [d] })
  else (false, b)

/-- Modelled from the spec: `pop_front() -> byte` removes and returns the
oldest byte; precondition `length > 0`, result unspecified on an empty
buffer (`bufferGetFromFront` of `buffer.c`, not under `src/`).  The empty
case returns the default byte 0; every caller in `uart2.c` that the claims
exercise gates on occupancy first, as the spec requires. -/
def bufferGetFromFront (b : cBuffer) : Nat × cBuffer :=
  (b.data.headD 0, { b with data := b.data.tail })

/-- Modelled from the spec: `flush()` discards all queued bytes
(`bufferFlush` of `buffer.c`, not under `src/`). -/
def bufferFlush (b : cBuffer) : cBuffer :=
  { b with data := [] }

/-- Modelled from the spec: buffer construction with a caller-supplied
capacity, initially empty (`bufferInit` of `buffer.c`, not under `src/`). -/
def bufferInit (size : Nat) : cBuffer :=
  { data := [], size := size }

/-- Pushing a whole list of bytes, one `bufferAddToEnd` at a time (the copy
loop of `uartSendBuffer`). -/
def bufferAddList (b : cBuffer) (l : List Nat) : cBuffer :=
  l.foldl (fun acc d => (bufferAddToEnd acc d).2) b

/-- The per-channel driver state of `uart2.c`: the `[2]`-indexed globals
restricted to one channel.  `UartRxFunc` is the user receive-callback
function pointer (`none` = null); `uartRxOverflow` is the 16-bit
`unsigned short` counter of uart2.c:35, a `Nat` always below 2^16 whose
increment wraps modulo 65536. -/
structure Chan where
  uartReadyTx : Bool
  uartBufferedTx : Bool
  uartRxBuffer : cBuffer
  uartTxBuffer : cBuffer
  uartRxOverflow : Nat
  UartRxFunc : Option Nat
deriving DecidableEq, Repr

/-- The full driver state: both channels (`nUart = 0` and `nUart = 1`). -/
structure UartGlobal where
  ch0 : Chan
  ch1 : Chan
deriving DecidableEq, Repr

/-- Externally visible hardware effects: a byte written to the UART
transmit data register (`outb(UDRn, b)`), or an invocation of the installed
user receive callback `f` with byte `c`. -/
inductive HwEvent where
  | txHw : Nat → HwEvent
  | callback : Nat → Nat → HwEvent
deriving DecidableEq, Repr

/-- `uartSendByte` (uart2.c:161): busy-waits for the transmit data register
(a real-time aspect outside the state model), writes the byte to the
hardware data register and clears `uartReadyTx`. -/
def uartSendByte (s : Chan) (txData : Nat) : Chan × List HwEvent :=
  ({ s with uartReadyTx := false }, [HwEvent.txHw txData])

/-- `uartAddToTxBuffer` (uart2.c:250): appends one byte to the transmit
ring buffer (the push result is discarded, as in the C code). -/
def uartAddToTxBuffer (s : Chan) (d : Nat) : Chan :=
  { s with uartTxBuffer := (bufferAddToEnd s.uartTxBuffer d).2 }

/-- `uartSendTxBuffer` (uart2.c:266): sets buffered-transmit mode, pops the
first queued byte and dispatches it via `uartSendByte`. -/
def uartSendTxBuffer (s : Chan) : Chan × List HwEvent :=
  let s1 : Chan := { s with uartBufferedTx := true }
  let p := bufferGetFromFront s1.uartTxBuffer
  uartSendByte { s1 with uartTxBuffer := p.2 } p.1

/-- `uartSendBuffer` (uart2.c:274): the guarded bulk enqueue.  On
`datalength + nBytes < size && nBytes` it grabs the first user byte, copies
user bytes 1..nBytes-1 into the transmit ring buffer, sets
`uartBufferedTx = 1` and sends the first byte via `uartSendByte`, returning
1; otherwise it returns 0 having changed nothing.  The user buffer is the
list `buffer`; the C caller guarantees it holds `nBytes` bytes. -/
def uartSendBuffer (s : Chan) (buffer : List Nat) (nBytes : Nat) :
    Nat × Chan × List HwEvent :=
  if s.uartTxBuffer.datalength + nBytes < s.uartTxBuffer.size ∧ nBytes ≠ 0 then
    let first := buffer.headD 0
    let txBuf := bufferAddList s.uartTxBuffer ((buffer.drop 1).take (nBytes - 1))
    let s1 : Chan := { s with uartTxBuffer := txBuf, uartBufferedTx := true }
    let p := uartSendByte s1 first
    (1, p.1, p.2)
  else
    (0, s, [])

/-- `uartTransmitService` (uart2.c:305), the transmit-complete interrupt
handler: in buffered mode with data left, pop one byte and write it
directly to the hardware data register (`outb(UDRn, ...)`, not through
`uartSendByte`); in buffered mode with an empty buffer, leave buffered mode
and set ready; in single-byte mode, set ready. -/
def uartTransmitService (s : Chan) : Chan × List HwEvent :=
  if s.uartBufferedTx then
    if s.uartTxBuffer.datalength ≠ 0 then
      let p := bufferGetFromFront s.uartTxBuffer
      ({ s with uartTxBuffer := p.2 }, [HwEvent.txHw p.1])
    else
      ({ s with uartBufferedTx := false, uartReadyTx := true }, [])
  else
    ({ s with uartReadyTx := true }, [])

/-- `uartReceiveService` (uart2.c:336), the receive-complete interrupt
handler: `c` is the byte read from the hardware data register.  If a user
callback is installed it is invoked with `c`; otherwise the byte is pushed
onto the receive ring buffer, and on push failure `uartRxOverflow` is
incremented (the byte is dropped); the counter is an `unsigned short`
(uart2.c:35), so the `++` at uart2.c:360 wraps modulo 2^16. -/
def uartReceiveService (s : Chan) (c : Nat) : Chan × List HwEvent :=
  match s.UartRxFunc with
  | some f => (s, [HwEvent.callback f c])
  | none =>
    let p := bufferAddToEnd s.uartRxBuffer c
    if p.1 then ({ s with uartRxBuffer := p.2 }, [])
    else ({ s with uartRxOverflow := (s.uartRxOverflow + 1) % 65536 }, [])

/-- `uartReceiveByte` (uart2.c:213): if the receive buffer has positive
capacity and is non-empty, pop the oldest byte, write it through the
`rxData` out-pointer and return 1; else return 0 with no write.  The
out-pointer write is embedded as the `Option Nat` middle component:
`some b` means the store `*rxData = b` was executed, `none` means the
caller's variable was not touched. -/
def uartReceiveByte (s : Chan) : Nat × Option Nat × Chan :=
  if s.uartRxBuffer.size ≠ 0 then
    if s.uartRxBuffer.datalength ≠ 0 then
      let p := bufferGetFromFront s.uartRxBuffer
      (1, some p.1, { s with uartRxBuffer := p.2 })
    else
      (0, none, s)
  else
    (0, none, s)

/-- The common body of `uart0GetByte`/`uart1GetByte` (uart2.c:192, 202):
declare a local byte `c` (initial indeterminate value `cInit`), call
`uartReceiveByte(n, &c)`, and return `c` on success, `-1` on failure. -/
def uartGetByteCore (cInit : Nat) (s : Chan) : Int × Chan :=
  let r := uartReceiveByte s
  let c : Nat := r.2.1.getD cInit
  if r.1 ≠ 0 then ((c : Int), r.2.2) else (-1, r.2.2)

/-- `uart0GetByte` (uart2.c:192): get a byte from channel 0. -/
def uart0GetByte (cInit : Nat) (g : UartGlobal) : Int × UartGlobal :=
  let r := uartGetByteCore cInit g.ch0
  (r.1, { g with ch0 := r.2 })

/-- `uart1GetByte` (uart2.c:202): get a byte from channel 1. -/
def uart1GetByte (cInit : Nat) (g : UartGlobal) : Int × UartGlobal :=
  let r := uartGetByteCore cInit g.ch1
  (r.1, { g with ch1 := r.2 })

/-- `uartFlushReceiveBuffer` (uart2.c:232). -/
def uartFlushReceiveBuffer (s : Chan) : Chan :=
  { s with uartRxBuffer := bufferFlush s.uartRxBuffer }

/-- `uartReceiveBufferIsEmpty` (uart2.c:238). -/
def uartReceiveBufferIsEmpty (s : Chan) : Bool :=
  s.uartRxBuffer.datalength == 0

/-- `uartTransmitPending` (uart2.c:243). -/
def uartTransmitPending (s : Chan) : Bool :=
  !s.uartReadyTx

/-- `uartSetRxHandler` (uart2.c:119): the one Facade operation that guards
the channel index.  For `nUart < 2` it stores the supplied function pointer
(possibly null) into `UartRxFunc[nUart]`; for `nUart ≥ 2` it does nothing. -/
def uartSetRxHandler (g : UartGlobal) (nUart : Nat) (f : Option Nat) : UartGlobal :=
  if nUart < 2 then
    if nUart = 0 then { g with ch0 := { g.ch0 with UartRxFunc := f } }
    else { g with ch1 := { g.ch1 with UartRxFunc := f } }
  else
    g

/-- `uart0Init`/`uart1Init` (uart2.c:55, 74) restricted to one channel:
fresh empty buffers of the configured capacities, null receive handler,
ready state, buffered transmit off, overflow count cleared.  The hardware
side (interrupt enables, baud rate, `sei`) is outside the state model. -/
def uartChanStart (rxSize txSize : Nat) : Chan :=
  { uartReadyTx := true
    uartBufferedTx := false
    uartRxBuffer := bufferInit rxSize
    uartTxBuffer := bufferInit txSize
    uartRxOverflow := 0
    UartRxFunc := none }

/-- Every operation of `uart2.c` that runs against one channel's state:
the Facade calls, the pure queries (which read but never write driver
state, collapsed into `query`), `uartSetBaudRate` (which writes only the
hardware baud registers), and the two interrupt handlers.  `chanStart` is
the per-channel body of `uart0Init`/`uart1Init`. -/
inductive Op where
  | chanStart : Nat → Nat → Op
  | setRxHandler : Option Nat → Op
  | setBaudRate : Op
  | sendByte : Nat → Op
  | addToTxBuffer : Nat → Op
  | sendTxBuffer : Op
  | sendBuffer : List Nat → Nat → Op
  | getByte : Nat → Op
  | flushReceiveBuffer : Op
  | query : Op
  | transmitService : Op
  | receiveService : Nat → Op
deriving DecidableEq, Repr

/-- Whether the operation is channel (re)initialization. -/
def Op.isStart : Op → Bool
  | Op.chanStart _ _ => true
  | _ => false

/-- The state transition each operation performs on a channel (return
values and hardware effects discarded). -/
def applyOp (op : Op) (s : Chan) : Chan :=
  match op with
  | Op.chanStart rxSize txSize => uartChanStart rxSize txSize
  | Op.setRxHandler f => { s with UartRxFunc := f }
  | Op.setBaudRate => s
  | Op.sendByte d => (uartSendByte s d).1
  | Op.addToTxBuffer d => uartAddToTxBuffer s d
  | Op.sendTxBuffer => (uartSendTxBuffer s).1
  | Op.sendBuffer buf n => (uartSendBuffer s buf n).2.1
  | Op.getByte cInit => (uartGetByteCore cInit s).2
  | Op.flushReceiveBuffer => uartFlushReceiveBuffer s
  | Op.query => s
  | Op.transmitService => (uartTransmitService s).1
  | Op.receiveService c => (uartReceiveService s c).1

/-- Iterated transmit-complete events: apply `uartTransmitService` `k`
times, collecting the hardware writes in order. -/
def serviceRun : Nat → Chan → Chan × List HwEvent
  | 0, s => (s, [])
  | k + 1, s =>
    let p := uartTransmitService s
    let q := serviceRun k p.1
    (q.1, p.2 ++ q.2)

/-- Iterated receive-complete events for the arriving byte sequence `cs`
(state only). -/
def receiveRun (cs : List Nat) (s : Chan) : Chan :=
  cs.foldl (fun t c => (uartReceiveService t c).1) s

/-- A concrete channel whose transmit ring buffer has capacity 8 and
occupancy 3 (the boundary example of the spec), used by witnesses. -/
def chanCap8Occ3 : Chan :=
  { uartReadyTx := true
    uartBufferedTx := false
    uartRxBuffer := { data := [], size := 4 }
    uartTxBuffer := { data := [11, 22, 33], size := 8 }
    uartRxOverflow := 0
    UartRxFunc := none }

/-- A concrete channel with an empty receive buffer of capacity 4, used by
witnesses. -/
def chanRxEmpty : Chan :=
  { uartReadyTx := true
    uartBufferedTx := false
    uartRxBuffer := { data := [], size := 4 }
    uartTxBuffer := { data := [], size := 8 }
    uartRxOverflow := 0
    UartRxFunc := none }

/-- A concrete channel with a full receive buffer (occupancy = capacity =
2), used by witnesses. -/
def chanRxFull : Chan :=
  { uartReadyTx := true
    uartBufferedTx := false
    uartRxBuffer := { data := [7, 9], size := 2 }
    uartTxBuffer := { data := [], size := 8 }
    uartRxOverflow := 5
    UartRxFunc := none }

/-- A concrete channel at the counter wrap point: full receive buffer and
`uartRxOverflow = 65535`, the largest `unsigned short` value; used by the
wrap counterexamples. -/
def chanRxWrap : Chan :=
  { uartReadyTx := true
    uartBufferedTx := false
    uartRxBuffer := { data := [7, 9], size := 2 }
    uartTxBuffer := { data := [], size := 8 }
    uartRxOverflow := 65535
    UartRxFunc := none }

/-- A concrete channel with the receive callback `some 42` installed, used
by witnesses. -/
def chanWithCb : Chan :=
  { uartReadyTx := true
    uartBufferedTx := false
    uartRxBuffer := { data := [3], size := 4 }
    uartTxBuffer := { data := [], size := 8 }
    uartRxOverflow := 1
    UartRxFunc := some 42 }

/-- A concrete channel in buffered-transmit mode with three queued bytes,
used by witnesses. -/
def chanBufTx : Chan :=
  { uartReadyTx := false
    uartBufferedTx := true
    uartRxBuffer := { data := [], size := 4 }
    uartTxBuffer := { data := [5, 6, 7], size := 8 }
    uartRxOverflow := 0
    UartRxFunc := none }

/-- A concrete two-channel driver state, used by witnesses. -/
def globA : UartGlobal :=
  { ch0 := chanRxEmpty, ch1 := chanCap8Occ3 }

/-- When there is room for all of `l`, pushing `l` byte by byte appends it
in order and keeps the capacity. -/
theorem bufferAddList_data (l : List Nat) (b : cBuffer)
    (h : b.data.length + l.length ≤ b.size) :
    (bufferAddList b l).data = b.data ++ l ∧ (bufferAddList b l).size = b.size := by
  induction l generalizing b with
  | nil => simp [bufferAddList]
  | cons d t ih =>
    have hlt : b.data.length < b.size := by simp at h; omega
    have hstep : bufferAddToEnd b d = (true, { b with data := b.data ++ [d] }) := by
      simp [bufferAddToEnd, hlt]
    have hrec := ih { b with data := b.data ++ [d] } (by simp at h ⊢; omega)
    simp only [bufferAddList, List.foldl_cons] at hrec ⊢
    rw [hstep] at *
    simpa using hrec

/-- Claim C7: flushing the receive buffer and then asking
`uartReceiveBufferIsEmpty` returns true, whatever the prior occupancy and
contents were. -/
theorem flush_then_empty (s : Chan) :
    uartReceiveBufferIsEmpty (uartFlushReceiveBuffer s) = true := by
  simp [uartReceiveBufferIsEmpty, uartFlushReceiveBuffer, bufferFlush,
    cBuffer.datalength]

/-- Claim C1: `uartSendBuffer` returns 1 exactly when the transmit buffer
occupancy plus `nBytes` is strictly below the capacity and `nBytes > 0`;
whenever it returns 0 the channel state is completely unchanged and no
hardware write happens; and at the spec's boundary (capacity 8,
occupancy 3) `nBytes = 4` succeeds, `nBytes = 5` fails, and `nBytes = 0`
fails without mutation. -/
theorem sendBuffer_success_iff (s : Chan) (buf : List Nat) (n : Nat) :
    ((uartSendBuffer s buf n).1 = 1 ↔
      (s.uartTxBuffer.datalength + n < s.uartTxBuffer.size ∧ n ≠ 0)) ∧
    ((uartSendBuffer s buf n).1 = 0 →
      (uartSendBuffer s buf n).2.1 = s ∧ (uartSendBuffer s buf n).2.2 = []) ∧
    (uartSendBuffer chanCap8Occ3 [1, 2, 3, 4] 4).1 = 1 ∧
    (uartSendBuffer chanCap8Occ3 [1, 2, 3, 4, 5] 5).1 = 0 ∧
    uartSendBuffer chanCap8Occ3 [] 0 = (0, chanCap8Occ3, []) := by
  refine ⟨?_, ?_, by decide, by decide, by decide⟩
  · unfold uartSendBuffer
    split
    · next h => simpa using h
    · next h => simpa using h
  · unfold uartSendBuffer
    split
    · simp
    · simp

/-- Witness for C1 at a concrete input: the failure branch leaves the
state untouched. -/
theorem sendBuffer_success_iff_witness :
    (uartSendBuffer chanCap8Occ3 [1, 2, 3, 4, 5] 5).2.1 = chanCap8Occ3 :=
  ((sendBuffer_success_iff chanCap8Occ3 [1, 2, 3, 4, 5] 5).2.1 (by decide)).1


/-- Claim C2: when `uartSendBuffer` succeeds (sufficient headroom,
`nBytes > 0`, user buffer of length `nBytes`), it sets `uartBufferedTx`,
exactly one byte — the first user byte — leaves via the hardware write
path, the transmit ring buffer afterwards holds the remaining user bytes
in order behind any previously queued bytes, and its occupancy is the old
occupancy plus `nBytes - 1`. -/
theorem sendBuffer_success_effect (s : Chan) (buf : List Nat) (n : Nat)
    (hlen : buf.length = n)
    (hok : s.uartTxBuffer.datalength + n < s.uartTxBuffer.size)
    (hn : n ≠ 0) :
    (uartSendBuffer s buf n).1 = 1 ∧
    (uartSendBuffer s buf n).2.1.uartBufferedTx = true ∧
    (uartSendBuffer s buf n).2.2 = [HwEvent.txHw (buf.headD 0)] ∧
    (uartSendBuffer s buf n).2.1.uartTxBuffer.data
      = s.uartTxBuffer.data ++ buf.tail ∧
    (uartSendBuffer s buf n).2.1.uartTxBuffer.datalength
      = s.uartTxBuffer.datalength + n - 1 := by
  have hcond : s.uartTxBuffer.datalength + n < s.uartTxBuffer.size ∧ n ≠ 0 :=
    ⟨hok, hn⟩
  have htail : (buf.drop 1).take (n - 1) = buf.tail := by
    have h1 : buf.drop 1 = buf.tail := List.drop_one buf
    rw [h1, List.take_of_length_le]
    simp [hlen]
  have htlen : buf.tail.length = n - 1 := by simp [hlen]
  have hroom : s.uartTxBuffer.data.length + buf.tail.length
      ≤ s.uartTxBuffer.size := by
    have hok' : s.uartTxBuffer.data.length + n < s.uartTxBuffer.size := hok
    omega
  have hadd := bufferAddList_data buf.tail s.uartTxBuffer hroom
  simp only [uartSendBuffer, htail, uartSendByte]
  rw [if_pos hcond]
  refine ⟨rfl, rfl, rfl, hadd.1, ?_⟩
  show (bufferAddList s.uartTxBuffer buf.tail).data.length
      = s.uartTxBuffer.data.length + n - 1
  rw [hadd.1]
  simp only [List.length_append, htlen]
  omega

/-- Witness for C2 at a concrete input: sending [1, 2, 3] on a channel
whose transmit buffer holds [11, 22, 33] (capacity 8) queues [2, 3] behind
the old bytes and writes 1 to the hardware. -/
theorem sendBuffer_success_effect_witness :
    (uartSendBuffer chanCap8Occ3 [1, 2, 3] 3).2.1.uartTxBuffer.data
        = [11, 22, 33, 2, 3] ∧
    (uartSendBuffer chanCap8Occ3 [1, 2, 3] 3).2.2 = [HwEvent.txHw 1] := by
  have h := sendBuffer_success_effect chanCap8Occ3 [1, 2, 3] 3
    (by decide) (by decide) (by decide)
  exact ⟨by rw [h.2.2.2.1]; decide, by rw [h.2.2.1]; decide⟩

/-- Splitting an iterated transmit service run: running `m + k` events is
running `m`, then `k` more from the reached state, with the hardware
writes concatenated. -/
theorem serviceRun_add (m k : Nat) (s : Chan) :
    serviceRun (m + k) s
      = ((serviceRun k (serviceRun m s).1).1,
         (serviceRun m s).2 ++ (serviceRun k (serviceRun m s).1).2) := by
  induction m generalizing s with
  | zero => simp [serviceRun]
  | succ m ih =>
    have h1 : m + 1 + k = (m + k) + 1 := by omega
    rw [h1]
    simp only [serviceRun]
    rw [ih]
    simp

/-- While the transmit buffer still holds bytes, each transmit-complete
event pops exactly the oldest byte to the hardware and touches nothing
else: after `i` events (`i` at most the occupancy) the emitted writes are
the first `i` queued bytes in order, the remaining queue is the rest,
buffered mode is still on and `uartReadyTx` has never been written. -/
theorem serviceRun_mid (i : Nat) (s : Chan)
    (hb : s.uartBufferedTx = true) (hi : i ≤ s.uartTxBuffer.data.length) :
    (serviceRun i s).1.uartReadyTx = s.uartReadyTx ∧
    (serviceRun i s).1.uartBufferedTx = true ∧
    (serviceRun i s).1.uartTxBuffer.data = s.uartTxBuffer.data.drop i ∧
    (serviceRun i s).1.uartTxBuffer.size = s.uartTxBuffer.size ∧
    (serviceRun i s).1.uartRxBuffer = s.uartRxBuffer ∧
    (serviceRun i s).1.uartRxOverflow = s.uartRxOverflow ∧
    (serviceRun i s).1.UartRxFunc = s.UartRxFunc ∧
    (serviceRun i s).2 = (s.uartTxBuffer.data.take i).map HwEvent.txHw := by
  induction i generalizing s with
  | zero => simp [serviceRun, hb]
  | succ i ih =>
    obtain ⟨d, rest, hd⟩ : ∃ d rest, s.uartTxBuffer.data = d :: rest := by
      cases hcase : s.uartTxBuffer.data with
      | nil => rw [hcase] at hi; simp at hi
      | cons d rest => exact ⟨d, rest, rfl⟩
    have hne : s.uartTxBuffer.datalength ≠ 0 := by
      simp [cBuffer.datalength, hd]
    have hstep : uartTransmitService s
        = ({ s with uartTxBuffer := { s.uartTxBuffer with data := rest } },
           [HwEvent.txHw d]) := by
      simp [uartTransmitService, hb, hne, bufferGetFromFront, hd]
    have hi' : i ≤ rest.length := by
      rw [hd] at hi; simpa using hi
    have hrec := ih { s with uartTxBuffer := { s.uartTxBuffer with data := rest } }
      hb hi'
    simp only [serviceRun]
    rw [hstep]
    simp only at hrec
    refine ⟨hrec.1, hrec.2.1, ?_, hrec.2.2.2.1, hrec.2.2.2.2.1,
      hrec.2.2.2.2.2.1, hrec.2.2.2.2.2.2.1, ?_⟩
    · rw [hrec.2.2.1, hd]
      simp
    · rw [hrec.2.2.2.2.2.2.2, hd]
      simp

/-- Claim C3: from any state in buffered-transmit mode with `k` queued
bytes, `k + 1` transmit-complete events emit exactly the queued bytes to
the hardware data register in FIFO order; during the first `k` events
`uartReadyTx` is never written and buffered mode stays on, and the final
event (the one that observes an empty buffer) clears `uartBufferedTx` and
sets `uartReadyTx`, so ready becomes true exactly once.  When
`uartBufferedTx` is false (single-byte mode), the event sets `uartReadyTx`
true. -/
theorem transmitService_drain (s : Chan) :
    (s.uartBufferedTx = true →
      ((serviceRun (s.uartTxBuffer.datalength + 1) s).2
          = s.uartTxBuffer.data.map HwEvent.txHw ∧
       (serviceRun (s.uartTxBuffer.datalength + 1) s).1.uartBufferedTx = false ∧
       (serviceRun (s.uartTxBuffer.datalength + 1) s).1.uartReadyTx = true ∧
       (serviceRun (s.uartTxBuffer.datalength + 1) s).1.uartTxBuffer.data = [] ∧
       (∀ i, i ≤ s.uartTxBuffer.datalength →
         (serviceRun i s).1.uartReadyTx = s.uartReadyTx ∧
         (serviceRun i s).1.uartBufferedTx = true ∧
         (serviceRun i s).1.uartTxBuffer.data = s.uartTxBuffer.data.drop i ∧
         (serviceRun i s).2 = (s.uartTxBuffer.data.take i).map HwEvent.txHw))) ∧
    (s.uartBufferedTx = false →
      (uartTransmitService s).1.uartReadyTx = true ∧
      (uartTransmitService s).2 = []) := by
  constructor
  · intro hb
    have hmid := serviceRun_mid s.uartTxBuffer.data.length s hb (le_refl _)
    have hadd := serviceRun_add s.uartTxBuffer.data.length 1 s
    have hlast : serviceRun 1 (serviceRun s.uartTxBuffer.data.length s).1
        = ({ (serviceRun s.uartTxBuffer.data.length s).1 with
              uartBufferedTx := false, uartReadyTx := true }, []) := by
      have hzero :
          ¬ (serviceRun s.uartTxBuffer.data.length s).1.uartTxBuffer.datalength
            ≠ 0 := by
        simp [cBuffer.datalength, hmid.2.2.1]
      simp [serviceRun, uartTransmitService, hmid.2.1, hzero]
    have hk : s.uartTxBuffer.datalength = s.uartTxBuffer.data.length := rfl
    rw [hk, hadd, hlast]
    refine ⟨?_, rfl, rfl, ?_, ?_⟩
    · rw [hmid.2.2.2.2.2.2.2]
      simp
    · exact hmid.2.2.1.trans (List.drop_length _)
    · intro i hi
      have h := serviceRun_mid i s hb hi
      exact ⟨h.1, h.2.1, h.2.2.1, h.2.2.2.2.2.2.2⟩
  · intro hb
    simp [uartTransmitService, hb]

/-- Witness for C3 at a concrete input: from buffered mode with queue
[5, 6, 7], four events write 5, 6, 7 in order and end with buffered mode
off and ready set; after the first two events ready has not been set. -/
theorem transmitService_drain_witness :
    (serviceRun 4 chanBufTx).2
        = [HwEvent.txHw 5, HwEvent.txHw 6, HwEvent.txHw 7] ∧
    (serviceRun 4 chanBufTx).1.uartBufferedTx = false ∧
    (serviceRun 4 chanBufTx).1.uartReadyTx = true ∧
    (serviceRun 2 chanBufTx).1.uartReadyTx = false := by
  have h := (transmitService_drain chanBufTx).1 rfl
  refine ⟨h.1, h.2.1, h.2.2.1, ?_⟩
  exact (h.2.2.2.2 2 (by decide)).1

/-- With no callback installed and room for the whole arrival sequence,
iterated receive-complete events append the bytes in arrival order and
never touch the overflow counter. -/
theorem receiveRun_data (cs : List Nat) (s : Chan)
    (hcb : s.UartRxFunc = none)
    (h : s.uartRxBuffer.datalength + cs.length ≤ s.uartRxBuffer.size) :
    (receiveRun cs s).uartRxBuffer.data = s.uartRxBuffer.data ++ cs ∧
    (receiveRun cs s).uartRxOverflow = s.uartRxOverflow := by
  induction cs generalizing s with
  | nil => simp [receiveRun]
  | cons c t ih =>
    have hlt : s.uartRxBuffer.data.length < s.uartRxBuffer.size := by
      simp only [cBuffer.datalength, List.length_cons] at h
      omega
    have hstep : (uartReceiveService s c).1
        = { s with uartRxBuffer :=
              { s.uartRxBuffer with data := s.uartRxBuffer.data ++ [c] } } := by
      simp [uartReceiveService, hcb, bufferAddToEnd, hlt]
    have hrec := ih
      { s with uartRxBuffer :=
          { s.uartRxBuffer with data := s.uartRxBuffer.data ++ [c] } }
      hcb (by simp only [cBuffer.datalength, List.length_append,
              List.length_cons] at h ⊢; simp; omega)
    simp only [receiveRun, List.foldl_cons] at hrec ⊢
    rw [hstep]
    refine ⟨?_, hrec.2⟩
    rw [hrec.1]
    simp

/-- Claim C4 (amended): with no receive callback installed, a
receive-complete event for byte `c` appends `c` to the receive ring
buffer when there is room, leaving the overflow counter alone; when the
buffer is full it leaves the buffer (contents, occupancy, capacity) and
all other state untouched and increments `uartRxOverflow` by exactly 1
modulo 2^16 (the counter is an `unsigned short`, so 65535 wraps to 0; in
every state below the wrap point this is exactly +1); the handler
produces no other external effect; and a sequence of events that fits
entirely enqueues the bytes in arrival order. -/
theorem receiveService_enqueue_overflow (s : Chan) (c : Nat)
    (hcb : s.UartRxFunc = none) :
    (s.uartRxBuffer.datalength < s.uartRxBuffer.size →
      (uartReceiveService s c).1
        = { s with uartRxBuffer :=
              { s.uartRxBuffer with data := s.uartRxBuffer.data ++ [c] } }) ∧
    (¬ s.uartRxBuffer.datalength < s.uartRxBuffer.size →
      (uartReceiveService s c).1
        = { s with uartRxOverflow := (s.uartRxOverflow + 1) % 65536 }) ∧
    (uartReceiveService s c).2 = [] ∧
    (∀ cs, s.uartRxBuffer.datalength + cs.length ≤ s.uartRxBuffer.size →
      (receiveRun cs s).uartRxBuffer.data = s.uartRxBuffer.data ++ cs ∧
      (receiveRun cs s).uartRxOverflow = s.uartRxOverflow) := by
  refine ⟨?_, ?_, ?_, fun cs h => receiveRun_data cs s hcb h⟩
  · intro h
    simp only [cBuffer.datalength] at h
    simp [uartReceiveService, hcb, bufferAddToEnd, h]
  · intro h
    simp only [cBuffer.datalength] at h
    simp [uartReceiveService, hcb, bufferAddToEnd, h]
  · by_cases h : s.uartRxBuffer.data.length < s.uartRxBuffer.size <;>
      simp [uartReceiveService, hcb, bufferAddToEnd, h]

/-- Witness for C4 at concrete inputs: on a full buffer [7, 9] of
capacity 2 the event drops the byte and bumps the counter from 5 to 6;
on an empty buffer of capacity 4 the byte is enqueued. -/
theorem receiveService_enqueue_overflow_witness :
    (uartReceiveService chanRxFull 3).1.uartRxOverflow = 6 ∧
    (uartReceiveService chanRxFull 3).1.uartRxBuffer.data = [7, 9] ∧
    (uartReceiveService chanRxEmpty 8).1.uartRxBuffer.data = [8] := by
  have h1 := (receiveService_enqueue_overflow chanRxFull 3 rfl).2.1 (by decide)
  have h2 := (receiveService_enqueue_overflow chanRxEmpty 8 rfl).1 (by decide)
  refine ⟨?_, ?_, ?_⟩
  · rw [h1]; decide
  · rw [h1]; decide
  · rw [h2]; decide

/-- Counterexample to claim C4 as stated: at counter 65535 (an
`unsigned short` at its maximum) a full-buffer receive event stores 0,
not 65535 + 1 -- the increment is not exactly +1 over the integers. -/
theorem receiveService_overflow_wrap_cex :
    chanRxWrap.UartRxFunc = none ∧
    ¬ chanRxWrap.uartRxBuffer.datalength < chanRxWrap.uartRxBuffer.size ∧
    (uartReceiveService chanRxWrap 3).1.uartRxOverflow
      ≠ chanRxWrap.uartRxOverflow + 1 ∧
    (uartReceiveService chanRxWrap 3).1.uartRxOverflow = 0 := by
  decide

/-- Claim C5: with a receive callback installed, a receive-complete event
invokes exactly that callback, exactly once, with exactly the received
byte, and leaves the whole channel state -- receive buffer, overflow
counter, everything -- unchanged. -/
theorem receiveService_callback_effect (s : Chan) (f c : Nat)
    (h : s.UartRxFunc = some f) :
    (uartReceiveService s c).1 = s ∧
    (uartReceiveService s c).2 = [HwEvent.callback f c] := by
  simp [uartReceiveService, h]

/-- Witness for C5 at a concrete input: callback 42 receives byte 77 and
the state is untouched. -/
theorem receiveService_callback_effect_witness :
    (uartReceiveService chanWithCb 77).1 = chanWithCb ∧
    (uartReceiveService chanWithCb 77).2 = [HwEvent.callback 42 77] :=
  receiveService_callback_effect chanWithCb 42 77 rfl

/-- On an empty (or capacity-zero) receive buffer the get-byte body
returns the sentinel -1 and leaves the state alone. -/
theorem uartGetByteCore_empty (cInit : Nat) (s : Chan)
    (h : s.uartRxBuffer.datalength = 0) :
    (uartGetByteCore cInit s).1 = -1 ∧ (uartGetByteCore cInit s).2 = s := by
  by_cases h1 : s.uartRxBuffer.size = 0 <;>
    simp [uartGetByteCore, uartReceiveByte, h, h1]

/-- Claim C6: `uartReceiveByte` fails (returns 0) exactly on an empty or
capacity-zero receive buffer, and otherwise removes the oldest buffered
byte and returns 1; `uart0GetByte`/`uart1GetByte` return the sentinel -1
(distinct from every valid byte value 0..255) when no data is buffered,
and after a single successful receive event they return that byte once and
then revert to the sentinel. -/
theorem receiveByte_sentinel (s : Chan) (g : UartGlobal) :
    ((s.uartRxBuffer.size = 0 ∨ s.uartRxBuffer.datalength = 0) →
      (uartReceiveByte s).1 = 0) ∧
    (s.uartRxBuffer.size ≠ 0 → s.uartRxBuffer.datalength ≠ 0 →
      (uartReceiveByte s).1 = 1 ∧
      (uartReceiveByte s).2.1 = some (s.uartRxBuffer.data.headD 0) ∧
      (uartReceiveByte s).2.2.uartRxBuffer.data = s.uartRxBuffer.data.tail) ∧
    (∀ cInit, g.ch0.uartRxBuffer.datalength = 0 →
      (uart0GetByte cInit g).1 = -1) ∧
    (∀ cInit, g.ch1.uartRxBuffer.datalength = 0 →
      (uart1GetByte cInit g).1 = -1) ∧
    (∀ b : Int, 0 ≤ b → b ≤ 255 → (-1 : Int) ≠ b) ∧
    (∀ c cInit cInit2,
      s.uartRxBuffer.data = [] → s.uartRxBuffer.size ≠ 0 →
      s.UartRxFunc = none →
      (uartGetByteCore cInit (uartReceiveService s c).1).1 = (c : Int) ∧
      (uartGetByteCore cInit2
          (uartGetByteCore cInit (uartReceiveService s c).1).2).1 = -1) := by
  refine ⟨?_, ?_, ?_, ?_, ?_, ?_⟩
  · intro h
    rcases h with h | h
    · simp [uartReceiveByte, h]
    · simp [uartReceiveByte, h]
  · intro h1 h2
    simp [uartReceiveByte, h1, h2, bufferGetFromFront]
  · intro cInit h
    have hc := uartGetByteCore_empty cInit g.ch0 h
    simp [uart0GetByte, hc.1]
  · intro cInit h
    have hc := uartGetByteCore_empty cInit g.ch1 h
    simp [uart1GetByte, hc.1]
  · intro b h1 h2
    omega
  · intro c cInit cInit2 hdata hsize hcb
    have hlt : s.uartRxBuffer.data.length < s.uartRxBuffer.size := by
      rw [hdata]
      simp
      omega
    have hstep : (uartReceiveService s c).1
        = { s with uartRxBuffer :=
              { s.uartRxBuffer with data := s.uartRxBuffer.data ++ [c] } } := by
      simp [uartReceiveService, hcb, bufferAddToEnd, hlt]
    rw [hstep, hdata]
    have hget : uartGetByteCore cInit
        { s with uartRxBuffer := { s.uartRxBuffer with data := [] ++ [c] } }
        = ((c : Int),
           { s with uartRxBuffer := { s.uartRxBuffer with data := [] } }) := by
      simp [uartGetByteCore, uartReceiveByte, bufferGetFromFront,
        cBuffer.datalength, hsize]
    rw [hget]
    refine ⟨rfl, ?_⟩
    exact (uartGetByteCore_empty cInit2 _ (by simp [cBuffer.datalength])).1

/-- Witness for C6 at concrete inputs: on an empty channel-0 buffer the
getter returns -1; after one receive event of byte 55 it returns 55, and
a further call returns -1 again. -/
theorem receiveByte_sentinel_witness :
    (uart0GetByte 99 globA).1 = -1 ∧
    (uartGetByteCore 0 (uartReceiveService chanRxEmpty 55).1).1 = 55 ∧
    (uartGetByteCore 1
        (uartGetByteCore 0 (uartReceiveService chanRxEmpty 55).1).2).1 = -1 := by
  have h := receiveByte_sentinel chanRxEmpty globA
  refine ⟨h.2.2.1 99 (by decide), ?_, ?_⟩
  · exact (h.2.2.2.2.2 55 0 1 rfl (by decide) rfl).1
  · exact (h.2.2.2.2.2 55 0 1 rfl (by decide) rfl).2

/-- Claim C8: `uartSetRxHandler` guards its channel index.  For channel 0
or 1 it stores the supplied handler (or clears it, for the null pointer
`none`) in that channel's slot, changing nothing else; for any index at
least 2 it leaves the entire driver state -- both channels' callback
slots, buffers, flags and counters -- unchanged. -/
theorem setRxHandler_guard (g : UartGlobal) (nUart : Nat) (f : Option Nat) :
    (nUart = 0 →
      uartSetRxHandler g nUart f
        = { g with ch0 := { g.ch0 with UartRxFunc := f } }) ∧
    (nUart = 1 →
      uartSetRxHandler g nUart f
        = { g with ch1 := { g.ch1 with UartRxFunc := f } }) ∧
    (2 ≤ nUart → uartSetRxHandler g nUart f = g) := by
  refine ⟨?_, ?_, ?_⟩
  · intro h
    simp [uartSetRxHandler, h]
  · intro h
    simp [uartSetRxHandler, h]
  · intro h
    have h2 : ¬ nUart < 2 := by omega
    simp [uartSetRxHandler, h2]

/-- Witness for C8 at concrete inputs: index 5 changes nothing; index 0
installs the handler. -/
theorem setRxHandler_guard_witness :
    uartSetRxHandler globA 5 (some 9) = globA ∧
    (uartSetRxHandler globA 0 (some 9)).ch0.UartRxFunc = some 9 := by
  refine ⟨(setRxHandler_guard globA 5 (some 9)).2.2 (by decide), ?_⟩
  rw [(setRxHandler_guard globA 0 (some 9)).1 rfl]

/-- Claim C10: `uartReceiveByte` performs the store through its `rxData`
out-pointer exactly when it reports success: the write component is `some`
iff the result is 1, and on the failure result 0 (empty buffer or
zero-capacity buffer, and only then) no write happens and the state is
untouched. -/
theorem receiveByte_write_iff (s : Chan) :
    ((uartReceiveByte s).1 = 1 ↔ ((uartReceiveByte s).2.1).isSome = true) ∧
    ((uartReceiveByte s).1 = 0 →
      (uartReceiveByte s).2.1 = none ∧ (uartReceiveByte s).2.2 = s) ∧
    ((uartReceiveByte s).1 = 0 ↔
      (s.uartRxBuffer.size = 0 ∨ s.uartRxBuffer.datalength = 0)) := by
  by_cases h1 : s.uartRxBuffer.size = 0
  · simp [uartReceiveByte, h1]
  · by_cases h2 : s.uartRxBuffer.datalength = 0
    · simp only [cBuffer.datalength] at h2
      simp [uartReceiveByte, cBuffer.datalength, h1, h2]
    · simp only [cBuffer.datalength] at h2
      simp [uartReceiveByte, cBuffer.datalength, h1, h2]

/-- Witness for C10 at a concrete input: on an empty buffer the call
reports 0, writes nothing through the pointer and leaves the state as it
was. -/
theorem receiveByte_write_iff_witness :
    (uartReceiveByte chanRxEmpty).2.1 = none ∧
    (uartReceiveByte chanRxEmpty).2.2 = chanRxEmpty :=
  (receiveByte_write_iff chanRxEmpty).2.1 (by decide)

/-- The get-byte body never moves the overflow counter. -/
theorem uartGetByteCore_overflow (cInit : Nat) (s : Chan) :
    (uartGetByteCore cInit s).2.uartRxOverflow = s.uartRxOverflow := by
  by_cases h1 : s.uartRxBuffer.size = 0
  · simp [uartGetByteCore, uartReceiveByte, h1]
  · by_cases h2 : s.uartRxBuffer.datalength = 0
    · simp [uartGetByteCore, uartReceiveByte, h1, h2]
    · simp [uartGetByteCore, uartReceiveByte, h1, h2]

/-- Every non-initialization operation either leaves `uartRxOverflow`
unchanged or performs the failed-push increment, which wraps modulo 2^16
(the counter is an `unsigned short`). -/
theorem rxOverflow_step (op : Op) (s : Chan) (h : Op.isStart op = false) :
    (applyOp op s).uartRxOverflow = s.uartRxOverflow ∨
    (applyOp op s).uartRxOverflow = (s.uartRxOverflow + 1) % 65536 := by
  cases op with
  | chanStart a b => simp [Op.isStart] at h
  | setRxHandler f => left; simp [applyOp]
  | setBaudRate => left; simp [applyOp]
  | sendByte d => left; simp [applyOp, uartSendByte]
  | addToTxBuffer d => left; simp [applyOp, uartAddToTxBuffer]
  | sendTxBuffer => left; simp [applyOp, uartSendTxBuffer, uartSendByte]
  | sendBuffer buf n =>
    left
    simp only [applyOp, uartSendBuffer]
    split <;> simp [uartSendByte]
  | getByte cInit =>
    left
    simp only [applyOp]
    rw [uartGetByteCore_overflow]
  | flushReceiveBuffer => left; simp [applyOp, uartFlushReceiveBuffer]
  | query => left; simp [applyOp]
  | transmitService =>
    left
    simp only [applyOp, uartTransmitService]
    split
    · split <;> simp
    · simp
  | receiveService c =>
    cases hcf : s.UartRxFunc with
    | some f => left; simp [applyOp, uartReceiveService, hcf]
    | none =>
      simp only [applyOp, uartReceiveService, hcf]
      split
      · left; simp
      · right; simp

/-- Claim C9 (amended): the only operations that write `uartRxOverflow`
are the failed receive push, which increments it by 1 modulo 2^16 (the
counter is an `unsigned short`, uart2.c:35), and channel initialization,
which resets it to 0.  Consequently the counter is non-decreasing under
every non-initialization operation from every state below the 16-bit
maximum; the single exception the width forces is the wrap of a failed
push at 65535, which steps to 0. -/
theorem rxOverflow_monotone (op : Op) (s : Chan) :
    (Op.isStart op = false →
      ((applyOp op s).uartRxOverflow = s.uartRxOverflow ∨
       (applyOp op s).uartRxOverflow = (s.uartRxOverflow + 1) % 65536)) ∧
    (Op.isStart op = false → s.uartRxOverflow + 1 < 65536 →
      s.uartRxOverflow ≤ (applyOp op s).uartRxOverflow) ∧
    (Op.isStart op = true → (applyOp op s).uartRxOverflow = 0) := by
  refine ⟨fun h => rxOverflow_step op s h, fun h hlt => ?_, fun h => ?_⟩
  · rcases rxOverflow_step op s h with h1 | h1
    · omega
    · rw [h1, Nat.mod_eq_of_lt hlt]
      omega
  · cases op with
    | chanStart a b => simp [applyOp, uartChanStart]
    | setRxHandler f => simp [Op.isStart] at h
    | setBaudRate => simp [Op.isStart] at h
    | sendByte d => simp [Op.isStart] at h
    | addToTxBuffer d => simp [Op.isStart] at h
    | sendTxBuffer => simp [Op.isStart] at h
    | sendBuffer buf n => simp [Op.isStart] at h
    | getByte cInit => simp [Op.isStart] at h
    | flushReceiveBuffer => simp [Op.isStart] at h
    | query => simp [Op.isStart] at h
    | transmitService => simp [Op.isStart] at h
    | receiveService c => simp [Op.isStart] at h

/-- Witness for C9 at concrete inputs: a receive event on a full buffer
with the counter at 5 does not decrease it, and re-initializing the
channel resets it to 0. -/
theorem rxOverflow_monotone_witness :
    chanRxFull.uartRxOverflow
        ≤ (applyOp (Op.receiveService 3) chanRxFull).uartRxOverflow ∧
    (applyOp (Op.chanStart 4 8) chanRxFull).uartRxOverflow = 0 :=
  ⟨(rxOverflow_monotone (Op.receiveService 3) chanRxFull).2.1 rfl (by decide),
   (rxOverflow_monotone (Op.chanStart 4 8) chanRxFull).2.2 rfl⟩

/-- Counterexample to claim C9 as stated: a receive-complete event -- not
an initialization -- run at counter 65535 on a full buffer wraps the
`unsigned short` to 0, a strict decrease, so the counter is not
monotonically non-decreasing under every non-initialization step. -/
theorem rxOverflow_decrease_cex :
    Op.isStart (Op.receiveService 3) = false ∧
    (applyOp (Op.receiveService 3) chanRxWrap).uartRxOverflow
      < chanRxWrap.uartRxOverflow := by
  decide

end Uart2
